import Mathlib

/-!
Shallow embedding of the `temp_control` program (temp_control.c together
with pi_helpers.h): a bang-bang temperature controller for a Raspberry Pi 2.

Modelling conventions:
* Hardware register windows (`gpio`, `sys_timer`) are modelled as total maps
  from a word index to the register's current value (`Nat → Nat`); every value
  ever stored by the program is < 2^32, matching the 32-bit registers.
* C `int` parameters are `Int`; C `size_t` values are `Nat` with arithmetic
  reduced modulo 2^32 where the C unsigned arithmetic wraps: the target is
  the Raspberry Pi 2 / BCM2836, a 32-bit ARMv7 board on which `size_t`,
  `long` and `unsigned long` are all 32 bits.
* Conversions between C `int` and the 32-bit unsigned registers use
  two's-complement semantics (value taken modulo 2^32), which is what the
  target compiler/board does; `~x` is `-x - 1`.
* `char` is unsigned on the ARM target, so the two SPI response bytes are
  naturals below 256.
* Console output and heater writes of the control loop are recorded as an
  explicit event trace rather than performed.
-/

namespace TempControl

/-- One observable action of a `check_temp` iteration: a
`printf("current temp: %lu\n", ...)` line, a `printf("overshoot: %lu\n", ...)`
line (carrying the exact `size_t` value printed), or a
`digital_write(CONTROLPIN, _)` call on the heater pin. -/
inductive Event where
  | tempLine (n : Nat)
  | overshootLine (n : Nat)
  | heater (isOn : Bool)
deriving DecidableEq, Repr

/-- The three `size_t` variables of `main` that `check_temp` receives by
pointer: the immutable target and the mutable `last_temp` / `overshoot`. -/
structure CtlState where
  target_temp : Nat
  last_temp : Nat
  overshoot : Nat
deriving DecidableEq, Repr

/-- C `size_t` subtraction `a - b` on the 32-bit ARM target: the difference
reduced modulo 2^32 (unsigned 32-bit wraparound). -/
def sub32 (a b : Nat) : Nat := (((a : Int) - (b : Int)) % ((2 : Int) ^ 32)).toNat

/-- `check_temp` from temp_control.c, for one already-truncated reading
`current` (the C code computes `current = (size_t)get_current_temp()`).
Returns the updated state and the ordered list of observable events.
`fmax` on the two nonnegative integer-valued doubles is `Nat.max`. -/
def check_temp (s : CtlState) (current : Nat) : CtlState × List Event :=
  if current ≠ s.last_temp then
    let reports :=
      [Event.tempLine current] ++
        (if current ≥ s.target_temp then
          [Event.overshootLine (sub32 s.overshoot s.target_temp)]
        else [])
    let heaterWrite := [Event.heater (decide (current < s.target_temp))]
    ({ s with last_temp := current, overshoot := Nat.max current s.overshoot },
      reports ++ heaterWrite)
  else
    ({ s with overshoot := Nat.max current s.overshoot },
      [Event.heater (decide (current < s.target_temp))])

/-- The `while(1) check_temp(...)` loop of `main`, run over a finite list of
successive truncated readings; yields the final state and the per-iteration
event lists. -/
def run_loop (s : CtlState) (readings : List Nat) : CtlState × List (List Event) :=
  match readings with
  | [] => (s, [])
  | r :: rs =>
    let step := check_temp s r
    let rest := run_loop step.1 rs
    (rest.1, step.2 :: rest.2)

/-- The `overshoot:` values among a list of events, in order. -/
def overshootValues (evs : List Event) : List Nat :=
  evs.filterMap fun e =>
    match e with
    | Event.overshootLine n => some n
    | _ => none

/-- The heater writes among a list of events, in order. -/
def heaterWrites (evs : List Event) : List Bool :=
  evs.filterMap fun e =>
    match e with
    | Event.heater b => some b
    | _ => none

/-- `get_current_temp` from temp_control.c, as a function of the two raw
bytes `one` and `two` answered by the ADC to the fixed transfers
`spi_send_receive(0x68)` and `spi_send_receive(0x00)`. The exact C double
arithmetic is reproduced in `ℚ`: every intermediate value
(`response * 5`, the quotient by 1024.0 and its product with 31.25) is
exactly representable in an IEEE double, so the rational result is the
double result. -/
def get_current_temp (one two : Nat) : ℚ :=
  let response0 : Nat := 0x00000000
  let response1 : Nat := (response0 ||| (one &&& 0x03)) <<< 8
  let response : Nat := response1 ||| two
  let voltage : ℚ := ((response * 5 : Nat) : ℚ) / 1024
  (31.25 : ℚ) * voltage

/-- The spec's conversion formula, written from the spec's words:
31.25 × ((((b1 & 0x03) << 8) | b2) × 5 / 1024). -/
def spec_celsius (b1 b2 : Nat) : ℚ :=
  (31.25 : ℚ) * ((((((b1 &&& 0x03) <<< 8) ||| b2) * 5 : Nat) : ℚ) / 1024)

/-- Result of `pin_mode` from pi_helpers.h: the GPIO register window after
the call, and whether the "bad pin" / "bad function" error messages were
printed. -/
structure GpioResult where
  gpio : Nat → Nat
  badPin : Bool
  badFunction : Bool

/-- The unconditional register mutation at the end of `pin_mode`
(pi_helpers.h lines 101-107), reached for every in-range pin:

    offset = pin / 10;
    shift  = (pin % 10) * 3;
    gpio[offset] &= ~((~function & 7) << shift);
    gpio[offset] |= function << shift;

C `~function & 7` keeps the low three bits of the two's complement of
`function`, i.e. `(-function - 1) % 8`; the `~` of the shifted mask,
converted to `unsigned`, flips its low 32 bits, i.e. XOR with 2^32 - 1;
`function << shift` lands in the 32-bit register modulo 2^32. -/
def pin_mode_mutate (g : Nat → Nat) (pin function : Int) : Nat → Nat :=
  let offset : Nat := (pin / 10).toNat
  let shift : Nat := ((pin % 10) * 3).toNat
  let cleared : Nat :=
    g offset &&& ((2 ^ 32 - 1) ^^^ ((((-function - 1) % 8).toNat) <<< shift))
  let written : Nat := cleared ||| ((function * 2 ^ shift) % ((2 : Int) ^ 32)).toNat
  fun i => if i = offset then written else g i

/-- `pin_mode` from pi_helpers.h. A pin outside [0,53] prints an error and
returns with no mutation; a function outside [0,7] only prints (the C
`else if` body has no `return`), after which control falls through to the
register mutation, which therefore also runs with the invalid function. -/
def pin_mode (g : Nat → Nat) (pin function : Int) : GpioResult :=
  if pin > 53 ∨ pin < 0 then
    { gpio := g, badPin := true, badFunction := false }
  else if function > 7 ∨ function < 0 then
    { gpio := pin_mode_mutate g pin function, badPin := false, badFunction := true }
  else
    { gpio := pin_mode_mutate g pin function, badPin := false, badFunction := false }

/-- The 3-bit function-select field of pin `p` as read back from the GPIO
register window: register `p / 10`, bits `(p % 10) * 3` and the two above. -/
def fsel_field (g : Nat → Nat) (p : Nat) : Nat :=
  (g (p / 10) >>> ((p % 10) * 3)) &&& 7

/-- `digital_write` from pi_helpers.h. Returns the GPIO register window
after the call and whether the "bad pin" error was printed. An in-range pin
stores the single-bit word `0x1 << (pin % 32)` into GPSET0/GPSET1
(word 7 / 8) when `val` is truthy, or into GPCLR0/GPCLR1 (word 10 / 11)
when `val` is 0. -/
def digital_write (g : Nat → Nat) (pin : Int) (val : Bool) : (Nat → Nat) × Bool :=
  if pin > 53 ∨ pin < 0 then (g, true)
  else if val then
    let set : Nat := if pin < 32 then 7 else 8
    (fun i => if i = set then 1 <<< (pin % 32).toNat else g i, false)
  else
    let clr : Nat := if pin < 32 then 10 else 11
    (fun i => if i = clr then 1 <<< (pin % 32).toNat else g i, false)

/-- `sleep_micros` from pi_helpers.h, as its effect on the system-timer
register window (word 0 = CS status, word 1 = CLO counter, word 4 = C1
compare). A zero duration returns before touching any register; otherwise
the compare register is set to `CLO + micros` (32-bit wraparound) and 0x2
is stored to the status register to clear M1; the final busy-wait only
reads. -/
def sleep_micros (t : Nat → Nat) (micros : Int) : Nat → Nat :=
  if micros = 0 then t
  else
    let afterCompare : Nat → Nat :=
      fun i => if i = 4 then (((t 1 : Int) + micros) % ((2 : Int) ^ 32)).toNat else t i
    fun i => if i = 0 then 0x2 else afterCompare i

/-- `sleep_millis` from pi_helpers.h: `sleep_micros(1000 * millis)`. -/
def sleep_millis (t : Nat → Nat) (millis : Int) : Nat → Nat :=
  sleep_micros t (1000 * millis)

/-- Outcome of `main` from temp_control.c before the infinite loop: an
early `return` with an exit code (both such paths run before `pio_init`,
`spi_init` or any register access), or entry into peripheral
initialization and the control loop with the accepted target. -/
inductive MainResult where
  | exitCode (code : Nat)
  | runLoop (target_temp : Nat)
deriving DecidableEq, Repr

/-- `main` from temp_control.c as a function of `argc` and of the `long`
value `arg` parsed from `argv[1]` by `strtol` (relevant only when
`argc = 2`). The parsed value is stored into the `size_t` variable
`target_temp`, wrapping modulo 2^32 (`size_t` and `long` are 32-bit on the
target), before the range test `target_temp > 70 || target_temp < 30`. -/
def main (argc : Nat) (arg : Int) : MainResult :=
  if argc ≠ 2 then MainResult.exitCode 1
  else
    let target_temp : Nat := (arg % ((2 : Int) ^ 32)).toNat
    if target_temp > 70 ∨ target_temp < 30 then MainResult.exitCode 2
    else MainResult.runLoop target_temp

/-! ## Claim theorems -/

/-- Claim C1, counterexample: in the scenario with target 50 and readings
[45, 45, 52, 52, 49] started from `main`'s initial state
(`last_temp = 0`, `overshoot = 0`), the console never reports
"overshoot: 2" — the claimed report does not happen as stated. -/
theorem C1_counterexample :
    ¬ Event.overshootLine 2 ∈
      ((run_loop ⟨50, 0, 0⟩ [45, 45, 52, 52, 49]).2.foldr (· ++ ·) []) := by
  decide

/-- Claim C1 (amended): with target 50 and readings [45, 45, 52, 52, 49] the
heater pin is driven through [on, on, off, off, on], and the console reports
an overshoot line exactly once, at the iteration where the reading first
reaches 52 — but the printed value is 4294967291 = (45 - 50) mod 2^32,
because `overshoot` (still 45, the running maximum being updated only after
the report) and the target are 32-bit `size_t` and the subtraction wraps.
The full per-iteration trace and final state are pinned down. -/
theorem C1_amended :
    run_loop ⟨50, 0, 0⟩ [45, 45, 52, 52, 49] =
      (⟨50, 49, 52⟩,
        [[Event.tempLine 45, Event.heater true],
         [Event.heater true],
         [Event.tempLine 52, Event.overshootLine 4294967291,
          Event.heater false],
         [Event.heater false],
         [Event.tempLine 49, Event.heater true]]) := by
  decide

/-- Claim C2, counterexample: in the iteration with target 50, previous
reading 45, running-maximum overshoot 45 and current reading 52 (which
differs from the previous reading and is at or above the target), the single
value reported on the overshoot line is 4294967291, which is not the
integer `overshoot − target` = 45 − 50 = −5: the reported value is a
wrapped unsigned number, never a negative one. -/
theorem C2_counterexample :
    overshootValues (check_temp ⟨50, 45, 45⟩ 52).2 = [4294967291] ∧
      ¬ ((4294967291 : Int) = (45 : Int) - (50 : Int)) := by
  constructor
  · decide
  · decide

/-- Claim C2 (amended): in any iteration where the current reading differs
from the previous one and is at or above the target, the value on the
overshoot line is `overshoot − target` computed in 32-bit `size_t`
arithmetic, i.e. (overshoot − target) mod 2^32: the true difference when
overshoot ≥ target, and the wrapped value 2^32 − (target − overshoot)
(a huge positive number, not a negative one) when the running-maximum
overshoot has not yet reached the target. -/
theorem C2_amended (s : CtlState) (current : Nat)
    (hne : current ≠ s.last_temp) (hge : current ≥ s.target_temp)
    (hov : s.overshoot < 2 ^ 32) (htg : s.target_temp < 2 ^ 32) :
    overshootValues (check_temp s current).2 = [sub32 s.overshoot s.target_temp] ∧
      (s.target_temp ≤ s.overshoot →
        sub32 s.overshoot s.target_temp = s.overshoot - s.target_temp) ∧
      (s.overshoot < s.target_temp →
        sub32 s.overshoot s.target_temp = 2 ^ 32 - (s.target_temp - s.overshoot)) := by
  refine ⟨?_, ?_, ?_⟩
  · rw [check_temp, if_pos hne, if_pos hge]
    rfl
  · intro hle
    unfold sub32
    omega
  · intro hlt
    unfold sub32
    omega

/-- Witness for C2_amended at target 50, previous reading 45, overshoot 45,
current reading 52. -/
theorem C2_witness :
    overshootValues (check_temp ⟨50, 45, 45⟩ 52).2 = [sub32 45 50] ∧
      (50 ≤ 45 → sub32 45 50 = 45 - 50) ∧
      (45 < 50 → sub32 45 50 = 2 ^ 32 - (50 - 45)) :=
  C2_amended ⟨50, 45, 45⟩ 52 (by decide) (by decide) (by decide) (by decide)

/-- Claim C3: for every pair of response bytes (b1, b2) answered to the two
fixed transfers, `get_current_temp` returns exactly
31.25 × ((((b1 & 0x03) << 8) | b2) × 5 / 1024), the spec's formula. -/
theorem C3_read_celsius (b1 b2 : Nat) (_h1 : b1 < 256) (_h2 : b2 < 256) :
    get_current_temp b1 b2 = spec_celsius b1 b2 := by
  simp [get_current_temp, spec_celsius]

/-- Witness for C3_read_celsius at the response bytes (0x01, 0xFF). -/
theorem C3_witness : get_current_temp 1 255 = spec_celsius 1 255 :=
  C3_read_celsius 1 255 (by decide) (by decide)

/-- Claim C9: `sleep_micros` with duration 0 returns without writing the
compare register, the match-status register, or any other timer register,
and for every nonzero duration `sleep_millis d` is exactly
`sleep_micros (1000 × d)`. -/
theorem C9_sleep :
    (∀ t : Nat → Nat, sleep_micros t 0 = t) ∧
      (∀ (t : Nat → Nat) (d : Int), d ≠ 0 → sleep_millis t d = sleep_micros t (1000 * d)) := by
  constructor
  · intro t
    rw [sleep_micros, if_pos rfl]
  · intro t d _
    rfl

/-- Witness for C9_sleep on the all-zero timer window and duration 5 ms. -/
theorem C9_witness :
    sleep_micros (fun _ => 0) 0 = (fun _ => 0) ∧
      sleep_millis (fun _ => 0) 5 = sleep_micros (fun _ => 0) (1000 * 5) :=
  ⟨C9_sleep.1 (fun _ => 0), C9_sleep.2 (fun _ => 0) 5 (by decide)⟩

/-- Claim C10: for the out-of-range function code 8 on the valid pin 0
(over an all-zero GPIO window), `pin_mode` logs the bad-function error yet
still shifts and ORs the unmasked value 8 into GPFSEL0: the register
becomes 8, pin 0's own field is left 0, and pin 1's 3-bit field changes
from 0 to 1 — bits outside pin 0's field were modified. -/
theorem C10_function_overflow :
    (pin_mode (fun _ => 0) 0 8).badFunction = true ∧
      (pin_mode (fun _ => 0) 0 8).gpio 0 = 8 ∧
      fsel_field (pin_mode (fun _ => 0) 0 8).gpio 0 = 0 ∧
      fsel_field (pin_mode (fun _ => 0) 0 8).gpio 1 = 1 ∧
      fsel_field (fun _ => 0) 1 = 0 := by
  refine ⟨rfl, ?_, ?_, ?_, rfl⟩ <;> decide

/-- Claim C8: a wrong argument count exits with code 1; an argument (any
value `strtol` can return, i.e. any 32-bit `long` of the target) outside
[30,70] exits with code 2 before any peripheral is initialized (`exitCode`
results return before `pio_init`/`spi_init`/`pin_mode` run); an argument
inside [30,70], boundaries included, proceeds to peripheral initialization
and the control loop with that target. -/
theorem C8_cli (argc : Nat) (arg : Int)
    (hlo : -(2 ^ 31) ≤ arg) (hhi : arg < 2 ^ 31) :
    (argc ≠ 2 → main argc arg = MainResult.exitCode 1) ∧
      (argc = 2 → (arg < 30 ∨ arg > 70) → main argc arg = MainResult.exitCode 2) ∧
      (argc = 2 → 30 ≤ arg → arg ≤ 70 → main argc arg = MainResult.runLoop arg.toNat) := by
  refine ⟨?_, ?_, ?_⟩
  · intro h
    rw [main, if_pos h]
  · intro h2 hout
    rw [main, if_neg (by omega), if_pos (by omega)]
  · intro h2 h30 h70
    rw [main, if_neg (by omega), if_neg (by omega)]
    congr 1
    omega

/-- Witness for C8_cli: one extra argument with value 50 exits 1; the lone
arguments 80, 29 and −3 exit 2; the lone arguments 50, 30 and 70 enter the
control loop. -/
theorem C8_witness :
    main 3 50 = MainResult.exitCode 1 ∧
      main 2 80 = MainResult.exitCode 2 ∧
      main 2 29 = MainResult.exitCode 2 ∧
      main 2 (-3) = MainResult.exitCode 2 ∧
      main 2 50 = MainResult.runLoop 50 ∧
      main 2 30 = MainResult.runLoop 30 ∧
      main 2 70 = MainResult.runLoop 70 :=
  ⟨(C8_cli 3 50 (by decide) (by decide)).1 (by decide),
    (C8_cli 2 80 (by decide) (by decide)).2.1 rfl (Or.inr (by decide)),
    (C8_cli 2 29 (by decide) (by decide)).2.1 rfl (Or.inl (by decide)),
    (C8_cli 2 (-3) (by decide) (by decide)).2.1 rfl (Or.inl (by decide)),
    (C8_cli 2 50 (by decide) (by decide)).2.2 rfl (by decide) (by decide),
    (C8_cli 2 30 (by decide) (by decide)).2.2 rfl (by decide) (by decide),
    (C8_cli 2 70 (by decide) (by decide)).2.2 rfl (by decide) (by decide)⟩

/-- The overshoot variable after one `check_temp` call: the running maximum
of the current reading and the old overshoot, in every iteration (both
branches of the reporting `if` perform the update). -/
theorem check_temp_overshoot (s : CtlState) (r : Nat) :
    ((check_temp s r).1).overshoot = Nat.max r s.overshoot := by
  rw [check_temp]
  split <;> rfl

/-- The overshoot variable after a whole reading sequence is the left fold
of `Nat.max` over the readings. -/
theorem run_loop_overshoot (s : CtlState) (rs : List Nat) :
    ((run_loop s rs).1).overshoot =
      rs.foldl (fun acc r => Nat.max r acc) s.overshoot := by
  induction rs generalizing s with
  | nil => rfl
  | cons r rs ih =>
    rw [run_loop]
    simpa [check_temp_overshoot] using ih (check_temp s r).1

/-- Claim C7: overshoot is updated in every iteration to the running
maximum of itself and the current reading; along any reading sequence it is
monotonically non-decreasing from one iteration to the next; and after any
number of iterations it equals the maximum of the readings observed so far
(the `Nat.max`-fold over them, which from `main`'s initial overshoot 0 is
their maximum). -/
theorem C7_overshoot :
    (∀ (s : CtlState) (r : Nat),
        ((check_temp s r).1).overshoot = Nat.max r s.overshoot) ∧
      (∀ (s : CtlState) (rs : List Nat) (n : Nat),
        ((run_loop s (rs.take n)).1).overshoot ≤
          ((run_loop s (rs.take (n + 1))).1).overshoot) ∧
      (∀ (s : CtlState) (rs : List Nat),
        ((run_loop s rs).1).overshoot =
          rs.foldl (fun acc r => Nat.max r acc) s.overshoot) := by
  refine ⟨check_temp_overshoot, ?_, run_loop_overshoot⟩
  intro s rs n
  induction rs generalizing s n with
  | nil => simp [run_loop]
  | cons r rs ih =>
    cases n with
    | zero =>
      simp [run_loop, check_temp_overshoot]
    | succ m =>
      simpa [run_loop] using ih (check_temp s r).1 m

/-- Claim C4: `pin_mode` validates asymmetrically. A pin outside [0,53]
makes it report the bad-pin error and return the GPIO window untouched; a
function outside [0,7] on a valid pin only logs the bad-function error and
then still performs the read-modify-write register mutation
(`pin_mode_mutate`) with the invalid function value. -/
theorem C4_validation (g : Nat → Nat) (pin function : Int) :
    ((pin > 53 ∨ pin < 0) → pin_mode g pin function = ⟨g, true, false⟩) ∧
      (0 ≤ pin → pin ≤ 53 → (function > 7 ∨ function < 0) →
        (pin_mode g pin function).badFunction = true ∧
        (pin_mode g pin function).gpio = pin_mode_mutate g pin function) := by
  constructor
  · intro h
    rw [pin_mode, if_pos h]
  · intro h0 h53 hf
    rw [pin_mode, if_neg (by omega), if_pos hf]
    exact ⟨rfl, rfl⟩

/-- Witness for C4_validation: the out-of-range pin 60 leaves the all-zero
window untouched and reports the bad pin; function 8 on valid pin 0 logs
the bad function and still mutates the register. -/
theorem C4_witness :
    pin_mode (fun _ => 0) 60 3 = ⟨(fun _ => 0), true, false⟩ ∧
      ((pin_mode (fun _ => 0) 0 8).badFunction = true ∧
        (pin_mode (fun _ => 0) 0 8).gpio = pin_mode_mutate (fun _ => 0) 0 8) :=
  ⟨(C4_validation (fun _ => 0) 60 3).1 (Or.inl (by decide)),
    (C4_validation (fun _ => 0) 0 8).2 (by decide) (by decide) (Or.inl (by decide))⟩

/-- Claim C6: for every pin p in [0,53], `digital_write` with a truthy value
stores exactly the single-bit word 2^(p mod 32) into the set register
selected by p < 32 (word 7 for pins 0-31, word 8 for pins 32-53) and leaves
every other register — in particular the complementary set register and
both clear registers — untouched; with value 0 it does the same
symmetrically on the clear registers (words 10 and 11). -/
theorem C6_write_pin (g : Nat → Nat) (p : Nat) (hp : p ≤ 53) :
    ((digital_write g (p : Int) true).1 (if p < 32 then 7 else 8) = 2 ^ (p % 32) ∧
      ∀ i, i ≠ (if p < 32 then 7 else 8) → (digital_write g (p : Int) true).1 i = g i) ∧
    ((digital_write g (p : Int) false).1 (if p < 32 then 10 else 11) = 2 ^ (p % 32) ∧
      ∀ i, i ≠ (if p < 32 then 10 else 11) → (digital_write g (p : Int) false).1 i = g i) := by
  have hcond : ¬ ((p : Int) > 53 ∨ (p : Int) < 0) := by omega
  have hm : ((p : Int) % 32).toNat = p % 32 := by omega
  by_cases h32 : p < 32
  · have h32i : ((p : Int) < 32) := by omega
    refine ⟨⟨?_, ?_⟩, ?_, ?_⟩
    · simp only [digital_write, if_neg hcond]
      simp [h32, h32i, hm, Nat.one_shiftLeft]
    · intro i hi
      rw [if_pos h32] at hi
      simp only [digital_write, if_neg hcond]
      simp [h32i, hi]
    · simp only [digital_write, if_neg hcond]
      simp [h32, h32i, hm, Nat.one_shiftLeft]
    · intro i hi
      rw [if_pos h32] at hi
      simp only [digital_write, if_neg hcond]
      simp [h32i, hi]
  · have h32i : ¬ ((p : Int) < 32) := by omega
    refine ⟨⟨?_, ?_⟩, ?_, ?_⟩
    · simp only [digital_write, if_neg hcond]
      simp [h32, h32i, hm, Nat.one_shiftLeft]
    · intro i hi
      rw [if_neg h32] at hi
      simp only [digital_write, if_neg hcond]
      simp [h32i, hi]
    · simp only [digital_write, if_neg hcond]
      simp [h32, h32i, hm, Nat.one_shiftLeft]
    · intro i hi
      rw [if_neg h32] at hi
      simp only [digital_write, if_neg hcond]
      simp [h32i, hi]

/-- Witness for C6_write_pin at pin 17 over the all-zero GPIO window: GPSET0
(word 7) receives 2^17 while GPSET1 (word 8) stays 0, and GPCLR0 (word 10)
receives 2^17 while word 7 stays 0 on the clearing call. -/
theorem C6_witness :
    (digital_write (fun _ => 0) 17 true).1 7 = 2 ^ (17 % 32) ∧
      (digital_write (fun _ => 0) 17 true).1 8 = 0 ∧
      (digital_write (fun _ => 0) 17 false).1 10 = 2 ^ (17 % 32) ∧
      (digital_write (fun _ => 0) 17 false).1 7 = 0 := by
  obtain ⟨⟨h1, h2⟩, h3, h4⟩ := C6_write_pin (fun _ => 0) 17 (by decide)
  exact ⟨h1, h2 8 (by decide), h3, h4 7 (by decide)⟩

/-- For a valid pin and function, `pin_mode`'s register window is the
read-modify-write of the C code expressed over naturals: the selected
function-select word is AND-masked with the 32-bit complement of
`(~f & 7) << shift` (and `~f & 7 = 7 - f` for f ≤ 7) and then OR-ed with
`f << shift`; no other word changes. -/
theorem pin_mode_gpio_nat (g : Nat → Nat) (p f : Nat) (hp : p ≤ 53) (hf : f ≤ 7) :
    (pin_mode g (p : Int) (f : Int)).gpio = fun i =>
      if i = p / 10 then
        (g (p / 10) &&& ((2 ^ 32 - 1) ^^^ ((7 - f) <<< ((p % 10) * 3)))) |||
          (f <<< ((p % 10) * 3))
      else g i := by
  rw [pin_mode, if_neg (by omega), if_neg (by omega)]
  show pin_mode_mutate g (p : Int) (f : Int) = _
  rw [pin_mode_mutate]
  have h1 : ((p : Int) / 10).toNat = p / 10 := by omega
  have h2 : (((p : Int) % 10) * 3).toNat = (p % 10) * 3 := by omega
  have h3 : ((-(f : Int) - 1) % 8).toNat = 7 - f := by omega
  have hsh : (p % 10) * 3 ≤ 27 := by omega
  have hlt : f * 2 ^ ((p % 10) * 3) < 2 ^ 32 := by
    calc f * 2 ^ ((p % 10) * 3) ≤ 7 * 2 ^ 27 :=
          Nat.mul_le_mul hf (Nat.pow_le_pow_right (by omega) hsh)
      _ < 2 ^ 32 := by norm_num
  have h4 : (((f : Int) * 2 ^ ((p % 10) * 3)) % ((2 : Int) ^ 32)).toNat =
      f <<< ((p % 10) * 3) := by
    rw [Nat.shiftLeft_eq]
    have hcast : ((f : Int) * 2 ^ ((p % 10) * 3)) = ((f * 2 ^ ((p % 10) * 3) : Nat) : Int) := by
      push_cast
      ring
    rw [hcast]
    have hmod : ((f * 2 ^ ((p % 10) * 3) : Nat) : Int) % ((2 : Int) ^ 32) =
        ((f * 2 ^ ((p % 10) * 3) : Nat) : Int) := by
      apply Int.emod_eq_of_lt
      · positivity
      · exact_mod_cast hlt
    rw [hmod]
    exact Int.toNat_ofNat _
  funext i
  simp only [h1, h2, h3, h4]

/-- The complement of a 3-bit value within its 3 bits: for f ≤ 7 and j < 3,
bit j of 7 − f is the negation of bit j of f. -/
theorem sub7_testBit (f j : Nat) (hf : f ≤ 7) (hj : j < 3) :
    (7 - f).testBit j = !(f.testBit j) := by
  interval_cases f <;> interval_cases j <;> rfl

/-- A value of at most 3 bits shifted left by `sh` has no bit outside
[sh, sh + 3). -/
theorem shiftLeft_testBit_small (x sh i : Nat) (hx : x ≤ 7)
    (h : i < sh ∨ sh + 3 ≤ i) : (x <<< sh).testBit i = false := by
  rw [Nat.testBit_shiftLeft]
  rcases h with h | h
  · have hge : ¬ (i ≥ sh) := by omega
    simp [hge]
  · have hx2 : x < 2 ^ (i - sh) := by
      have h8 : (2 : Nat) ^ 3 ≤ 2 ^ (i - sh) := Nat.pow_le_pow_right (by omega) (by omega)
      omega
    simp [Nat.testBit_lt_two_pow hx2]

/-- Bitwise description of the function-select read-modify-write: inside
the 3-bit window starting at `sh` the result carries the bits of `f`,
everywhere else below bit 32 it carries the bits of the old word. -/
theorem update_testBit (v f sh i : Nat) (hf : f ≤ 7) (hi : i < 32) :
    ((v &&& ((2 ^ 32 - 1) ^^^ ((7 - f) <<< sh))) ||| (f <<< sh)).testBit i =
      if sh ≤ i ∧ i < sh + 3 then f.testBit (i - sh) else v.testBit i := by
  rw [Nat.testBit_or, Nat.testBit_and, Nat.testBit_xor, Nat.testBit_two_pow_sub_one]
  by_cases hin : sh ≤ i ∧ i < sh + 3
  · have e1 : ((7 - f) <<< sh).testBit i = !(f.testBit (i - sh)) := by
      rw [Nat.testBit_shiftLeft, sub7_testBit f (i - sh) hf (by omega)]
      have hge : i ≥ sh := hin.1
      simp [hge]
    have e3 : (f <<< sh).testBit i = f.testBit (i - sh) := by
      rw [Nat.testBit_shiftLeft]
      have hge : i ≥ sh := hin.1
      simp [hge]
    rw [e1, e3, if_pos hin, decide_eq_true hi]
    cases f.testBit (i - sh) <;> cases v.testBit i <;> rfl
  · have e1 : ((7 - f) <<< sh).testBit i = false :=
      shiftLeft_testBit_small _ _ _ (by omega) (by omega)
    have e3 : (f <<< sh).testBit i = false :=
      shiftLeft_testBit_small _ _ _ hf (by omega)
    rw [e1, e3, if_neg hin]
    simp [hi]

/-- Reading a 3-bit field whose three bits agree with the bits of f ≤ 7
yields f. -/
theorem field_extract (w f t : Nat) (hf : f ≤ 7)
    (h : ∀ j, j < 3 → w.testBit (t + j) = f.testBit j) :
    (w >>> t) &&& 7 = f := by
  apply Nat.eq_of_testBit_eq
  intro j
  rw [Nat.testBit_and, Nat.testBit_shiftRight]
  by_cases hj : j < 3
  · have h7 : (7 : Nat).testBit j = true := by interval_cases j <;> rfl
    rw [h j hj, h7, Bool.and_true]
  · have h2j : (2 : Nat) ^ 3 ≤ 2 ^ j := Nat.pow_le_pow_right (by omega) (by omega)
    have h7 : (7 : Nat).testBit j = false := Nat.testBit_lt_two_pow (by omega)
    have hfj : f.testBit j = false := Nat.testBit_lt_two_pow (by omega)
    rw [h7, hfj, Bool.and_false]

/-- Two words agreeing on the three bits starting at t give equal 3-bit
fields there. -/
theorem field_congr (w v t : Nat)
    (h : ∀ j, j < 3 → w.testBit (t + j) = v.testBit (t + j)) :
    (w >>> t) &&& 7 = (v >>> t) &&& 7 := by
  apply Nat.eq_of_testBit_eq
  intro j
  rw [Nat.testBit_and, Nat.testBit_and, Nat.testBit_shiftRight, Nat.testBit_shiftRight]
  by_cases hj : j < 3
  · rw [h j hj]
  · have h2j : (2 : Nat) ^ 3 ≤ 2 ^ j := Nat.pow_le_pow_right (by omega) (by omega)
    have h7 : (7 : Nat).testBit j = false := Nat.testBit_lt_two_pow (by omega)
    rw [h7, Bool.and_false, Bool.and_false]

/-- Claim C5: for every pin p in [0,53] and function f in [0,7], after
`pin_mode` the 3-bit function-select field of pin p (word p/10, bit offset
(p%10)*3) reads back as f, and the 3-bit field of every other pin is
unchanged. -/
theorem C5_field_update (g : Nat → Nat) (p f : Nat) (hp : p ≤ 53) (hf : f ≤ 7) :
    fsel_field (pin_mode g (p : Int) (f : Int)).gpio p = f ∧
      ∀ q, q ≤ 53 → q ≠ p →
        fsel_field (pin_mode g (p : Int) (f : Int)).gpio q = fsel_field g q := by
  rw [pin_mode_gpio_nat g p f hp hf]
  constructor
  · show ((if p / 10 = p / 10 then _ else g (p / 10)) >>> ((p % 10) * 3)) &&& 7 = f
    rw [if_pos rfl]
    apply field_extract _ _ _ hf
    intro j hj
    rw [update_testBit _ _ _ _ hf (by omega), if_pos (by omega)]
    congr 1
    omega
  · intro q hq hqp
    show ((if q / 10 = p / 10 then _ else g (q / 10)) >>> ((q % 10) * 3)) &&& 7 =
      fsel_field g q
    by_cases hreg : q / 10 = p / 10
    · rw [if_pos hreg, fsel_field, hreg]
      apply field_congr
      intro j hj
      rw [update_testBit _ _ _ _ hf (by omega), if_neg (by omega)]
    · rw [if_neg hreg, fsel_field]

/-- Witness for C5_field_update at pin 17, function 1 (the `OUTPUT`
configuration of the heater pin performed by `main`) over the all-ones
GPIO window: pin 17's field reads back 1 and pin 16's field is unchanged. -/
theorem C5_witness :
    fsel_field (pin_mode (fun _ => 0xFFFFFFFF) 17 1).gpio 17 = 1 ∧
      fsel_field (pin_mode (fun _ => 0xFFFFFFFF) 17 1).gpio 16 =
        fsel_field (fun _ => 0xFFFFFFFF) 16 := by
  obtain ⟨h1, h2⟩ := C5_field_update (fun _ => 0xFFFFFFFF) 17 1 (by decide) (by decide)
  exact ⟨h1, h2 16 (by decide) (by decide)⟩

end TempControl

